import Mathlib

/-!
Shallow embedding of the `cbox` library (`src/src/lib.rs`): wrapper types for
C-allocated pointers (`CBox`, `CSemiBox`), the `DisposeRef` teardown capability,
and the `str` specializations (`From<&str>`, `Deref`, `Clone`, `Display`,
`Debug`, `PartialEq`).  The foreign heap (`malloc`/`free`/`strcpy`) is modelled
as an association list of allocated byte blocks keyed by abstract addresses;
Rust drop glue is modelled by an explicit end-of-life step on each wrapper.
-/

namespace Cbox

/-- A raw C pointer, modelled as an abstract address. -/
abbrev Ptr := Nat

/-- Look up the first block with base address `p` in an allocation list. -/
def findBlock (p : Ptr) : List (Ptr × List Nat) → Option (List Nat)
  | [] => none
  | e :: rest => if e.1 = p then some e.2 else findBlock p rest

/-- The foreign heap: allocated blocks (base address, byte contents) plus the
next fresh address.  Models the C allocator family `malloc`/`free`; allocation
is modelled as always succeeding (the library never checks for a null return). -/
structure Heap where
  blocks : List (Ptr × List Nat)
  next : Ptr
deriving Repr, DecidableEq

/-- The bytes of the block at `p`, if allocated. -/
def Heap.lookup (h : Heap) (p : Ptr) : Option (List Nat) :=
  findBlock p h.blocks

/-- `libc::malloc(n)`: allocate a fresh `n`-byte block (contents indeterminate,
modelled as zeroes) and return its address together with the new heap. -/
def Heap.malloc (h : Heap) (n : Nat) : Ptr × Heap :=
  (h.next, ⟨(h.next, List.replicate n 0) :: h.blocks, h.next + 1⟩)

/-- Replace the contents of the block at `p` with `bs` (in-place store). -/
def Heap.setBlock (h : Heap) (p : Ptr) (bs : List Nat) : Heap :=
  ⟨h.blocks.map (fun e => if e.1 = p then (p, bs) else e), h.next⟩

/-- `libc::free(p)`: release the block at `p`.  Returns `none` on an invalid
or double free (freeing an address that is not currently allocated). -/
def Heap.free (h : Heap) (p : Ptr) : Option Heap :=
  match h.lookup p with
  | none => none
  | some _ => some ⟨h.blocks.filter (fun e => !(e.1 == p)), h.next⟩

/-- Overwrite the front of a block with `data`, keeping the remaining tail. -/
def writeBytes (block data : List Nat) : List Nat :=
  data ++ block.drop data.length

/-- `CString::new(text)` from the Rust standard library: fails when `text`
contains an interior zero byte, otherwise appends the zero terminator. -/
def cstringNew (text : List Nat) : Option (List Nat) :=
  if 0 ∈ text then none else some (text ++ [0])

/-- `libc::strcpy(dst, src)` with `src` a host-side buffer given as its byte
list: copy the bytes of `src` up to its first zero byte, plus the terminator,
into the block at `dst`. -/
def Heap.strcpy (h : Heap) (dst : Ptr) (src : List Nat) : Heap :=
  match h.lookup dst with
  | none => h
  | some blk => h.setBlock dst (writeBytes blk (src.takeWhile (fun b => !(b == 0)) ++ [0]))

/-- `libc::strcpy(dst, src)` with `src` a pointer into the foreign heap. -/
def Heap.strcpyP (h : Heap) (dst src : Ptr) : Heap :=
  h.strcpy dst ((h.lookup src).getD [])

/-- `CStr::from_ptr(p).to_bytes()`: the bytes stored at `p` up to (and not
including) the first zero byte. -/
def derefBytes (h : Heap) (p : Ptr) : List Nat :=
  match h.lookup p with
  | none => []
  | some bs => bs.takeWhile (fun b => !(b == 0))

/-- Heap well-formedness: every allocated base address lies below the
fresh-address bound, so `malloc` always returns an address distinct from every
live block. -/
def Heap.WF (h : Heap) : Prop := ∀ e ∈ h.blocks, e.1 < h.next

instance (h : Heap) : Decidable h.WF := by
  unfold Heap.WF; infer_instance

/-- `CSemiBox<'a, D>` (src/src/lib.rs lines 26-29): a raw pointer plus a
zero-sized lifetime marker (no runtime storage). -/
structure CSemiBox where
  ptr : Ptr
deriving Repr, DecidableEq

/-- `CBox<D>` (src/src/lib.rs lines 110-112): a single raw pointer. -/
structure CBox where
  ptr : Ptr
deriving Repr, DecidableEq

/-- `CSemiBox::new` (lines 33-38): wrap the pointer, storing it unchanged. -/
def CSemiBox.new (p : Ptr) : CSemiBox := ⟨p⟩

/-- `CSemiBox::as_ptr` (lines 41-43): return the internal pointer. -/
def CSemiBox.as_ptr (b : CSemiBox) : Ptr := b.ptr

/-- `CSemiBox::unwrap` (lines 46-50): read the pointer, `mem::forget(self)`
(so the `Drop` impl will not run), and return the pointer. -/
def CSemiBox.unwrap (b : CSemiBox) : Ptr := b.ptr

/-- `CBox::new` (lines 116-120): wrap the pointer, storing it unchanged. -/
def CBox.new (p : Ptr) : CBox := ⟨p⟩

/-- `CBox::as_ptr` (lines 123-125): return the internal pointer. -/
def CBox.as_ptr (b : CBox) : Ptr := b.ptr

/-- `CBox::unwrap` (lines 128-132): read the pointer, `mem::forget(self)`,
and return the pointer. -/
def CBox.unwrap (b : CBox) : Ptr := b.ptr

/-- `CBox::as_semi` / `as_semi_mut` (lines 134-144): `mem::transmute` of a
`CBox` reference to a `CSemiBox` reference.  Both types have the identical
single-pointer layout, so the reinterpretation takes no heap argument:
it allocates nothing and copies nothing. -/
def CBox.as_semi (b : CBox) : CSemiBox := ⟨b.ptr⟩

/-- The inverse of the `as_semi` reinterpretation: the same layout-equivalence
transmute read in the other direction. -/
def CSemiBox.toBox (s : CSemiBox) : CBox := ⟨s.ptr⟩

/-- A counting `DisposeRef` implementation (the spec's "test Disposable that
counts invocations"): how many times `dispose` has run on each pointer. -/
structure DisposeCount where
  count : Ptr → Nat

/-- One invocation of `DisposeRef::dispose` on pointer `p`. -/
def DisposeCount.invoke (σ : DisposeCount) (p : Ptr) : DisposeCount :=
  ⟨fun q => if q = p then σ.count q + 1 else σ.count q⟩

/-- The zero-count state. -/
def DisposeCount.zero : DisposeCount := ⟨fun _ => 0⟩

/-- The exit paths on which Rust runs drop glue for local variables. -/
inductive ExitPath
  | normal
  | earlyReturn
  | unwind
deriving Repr, DecidableEq

/-- How a wrapper's life ends: dropped when its scope exits along some path,
or consumed by `unwrap` (a move, so drop glue never runs afterwards). -/
inductive Lifecycle
  | dropped (path : ExitPath)
  | unwrapped
deriving Repr, DecidableEq

/-- `impl Drop for CSemiBox` (lines 58-64): a single call
`<D as DisposeRef>::dispose(self.ptr)`. -/
def CSemiBox.drop (b : CSemiBox) (σ : DisposeCount) : DisposeCount :=
  σ.invoke b.ptr

/-- End of life of a `CSemiBox`: dropping runs the `Drop` impl (on every exit
path); `unwrap` does `mem::forget(self)`, so no dispose call happens. -/
def CSemiBox.endLife (b : CSemiBox) (lc : Lifecycle) (σ : DisposeCount) : DisposeCount :=
  match lc with
  | .dropped _ => b.drop σ
  | .unwrapped => σ

/-- End of life of a `CBox`: the source declares no `impl Drop for CBox`
anywhere in src/src/lib.rs, so its drop glue invokes no dispose at all;
`unwrap` likewise runs nothing (`mem::forget` of a type without drop glue). -/
def CBox.endLife (_b : CBox) (_lc : Lifecycle) (σ : DisposeCount) : DisposeCount :=
  σ

/-- A Rust panic (here: `Option::unwrap` on `None`).  A panic unwinds or
aborts; it is not an error value returned to the caller. -/
inductive RustPanic
  | interiorNul
deriving Repr, DecidableEq

/-- `impl From<&str> for CBox<str>` (lines 146-156):
`CString::new(text).unwrap()` (panics on an interior zero byte, before any
allocation), then `malloc(text.len() + 1)`, then `strcpy` from the `CString`
buffer, then `CBox::new(ptr)`. -/
def CBox.fromStr (h : Heap) (text : List Nat) : Except RustPanic (CBox × Heap) :=
  match cstringNew text with
  | none => .error .interiorNul
  | some cstr =>
    let m := h.malloc (text.length + 1)
    .ok (⟨m.1⟩, m.2.strcpy m.1 cstr)

/-- `impl Deref for CBox<str>` (lines 158-166): `CStr::from_ptr(self.ptr)`,
then take its bytes (up to the terminator) as the string contents. -/
def CBox.derefStr (h : Heap) (b : CBox) : List Nat :=
  derefBytes h b.ptr

/-- Transparent read access through a `CSemiBox` at `str` (the generic `Deref`
for `CSemiBox`, lines 65-70, resolves to reading through the stored pointer). -/
def CSemiBox.derefStr (h : Heap) (s : CSemiBox) : List Nat :=
  derefBytes h s.ptr

/-- `impl Clone for CBox<str>` (lines 167-175): `malloc(self.len() + 1)` then
`strcpy(ptr, self.ptr)` reading from the original block, then `CBox::new`. -/
def CBox.cloneStr (h : Heap) (b : CBox) : CBox × Heap :=
  let m := h.malloc ((b.derefStr h).length + 1)
  (⟨m.1⟩, m.2.strcpyP m.1 b.ptr)

/-- `impl PartialEq<T> for CBox<T>` (lines 203-209) at `T = str`: compare the
dereferenced contents with the other value. -/
def CBox.eqStr (h : Heap) (b : CBox) (other : List Nat) : Bool :=
  b.derefStr h == other

/-- Rust standard library `Display for str`: renders the text itself. -/
def strDisplay (s : List Nat) : List Nat := s

/-- One byte of the Rust standard library `Debug for str` rendering: quotes
and backslashes are escaped, other bytes pass through. -/
def strDebugByte (b : Nat) : List Nat :=
  if b = 34 then [92, 34] else if b = 92 then [92, 92] else [b]

/-- Rust standard library `Debug for str`: the text, escaped, delimited by
quote characters (byte 34). -/
def strDebug (s : List Nat) : List Nat :=
  34 :: (s.map strDebugByte).flatten ++ [34]

/-- `impl fmt::Display for CBox<str>` (lines 176-180):
`fmt.write_str(self.deref())`. -/
def CBox.displayStr (h : Heap) (b : CBox) : List Nat :=
  b.derefStr h

/-- `impl fmt::Debug for CBox<str>` (lines 181-185):
`fmt.write_str(self.deref())` — it writes the raw text, exactly as `Display`
does. -/
def CBox.debugStr (h : Heap) (b : CBox) : List Nat :=
  b.derefStr h

/-- `impl fmt::Display for CSemiBox` (lines 81-85): delegates to the wrapped
value's `Display` on the dereferenced contents; at `str` this renders the
text. -/
def CSemiBox.displayStr (h : Heap) (s : CSemiBox) : List Nat :=
  strDisplay (s.derefStr h)

/-- `impl fmt::Debug for CSemiBox` (lines 86-90): delegates to the wrapped
value's `Debug` on the dereferenced contents; at `str` this is the quoted,
escaped rendering. -/
def CSemiBox.debugStr (h : Heap) (s : CSemiBox) : List Nat :=
  strDebug (s.derefStr h)

/-! Helper lemmas about the heap model. -/

lemma takeWhile_eq_self (s : List Nat) (hz : 0 ∉ s) :
    s.takeWhile (fun b => !(b == 0)) = s := by
  induction s with
  | nil => rfl
  | cons a t ih =>
    have ha : a ≠ 0 := fun h => hz (by simp [h])
    have ht : 0 ∉ t := fun h => hz (List.mem_cons_of_mem _ h)
    have hb : (!(a == 0)) = true := by simp [ha]
    simp [List.takeWhile_cons, hb, ih ht]

lemma takeWhile_append_nul (s : List Nat) (hz : 0 ∉ s) :
    (s ++ [0]).takeWhile (fun b => !(b == 0)) = s := by
  induction s with
  | nil => rfl
  | cons a t ih =>
    have ha : a ≠ 0 := fun h => hz (by simp [h])
    have ht : 0 ∉ t := fun h => hz (List.mem_cons_of_mem _ h)
    have hb : (!(a == 0)) = true := by simp [ha]
    simp [List.takeWhile_cons, hb, ih ht]

lemma nul_notMem_takeWhile (s : List Nat) :
    0 ∉ s.takeWhile (fun b => !(b == 0)) := by
  intro hmem
  have := List.mem_takeWhile_imp hmem
  simp at this

lemma writeBytes_exact (blk d : List Nat) (hlen : d.length = blk.length) :
    writeBytes blk d = d := by
  unfold writeBytes
  rw [hlen, List.drop_length, List.append_nil]

lemma findBlock_map_setBlock_ne (p q : Ptr) (bs : List Nat)
    (l : List (Ptr × List Nat)) (hne : p ≠ q) :
    findBlock p (l.map (fun e => if e.1 = q then (q, bs) else e)) = findBlock p l := by
  induction l with
  | nil => rfl
  | cons e rest ih =>
    by_cases he : e.1 = q
    · have hqp : q ≠ p := fun h => hne h.symm
      have hep : e.1 ≠ p := fun h => hne (h ▸ he).symm.symm
      simp [findBlock, he, hqp, hep, ih]
    · simp only [List.map_cons, if_neg he, findBlock]
      by_cases hp : e.1 = p
      · simp [hp]
      · simp [hp, ih]

lemma lookup_setBlock_ne (h : Heap) (q p : Ptr) (bs : List Nat) (hne : p ≠ q) :
    (h.setBlock q bs).lookup p = h.lookup p := by
  unfold Heap.setBlock Heap.lookup
  exact findBlock_map_setBlock_ne p q bs h.blocks hne

lemma map_setBlock_id (l : List (Ptr × List Nat)) (q : Ptr) (bs : List Nat)
    (hq : ∀ e ∈ l, e.1 ≠ q) :
    l.map (fun e => if e.1 = q then (q, bs) else e) = l := by
  induction l with
  | nil => rfl
  | cons e rest ih =>
    have he : e.1 ≠ q := hq e (List.mem_cons_self e rest)
    have hrest : ∀ e ∈ rest, e.1 ≠ q := fun x hx => hq x (List.mem_cons_of_mem _ hx)
    simp [if_neg he, ih hrest]

lemma filter_ne_id (l : List (Ptr × List Nat)) (q : Ptr)
    (hq : ∀ e ∈ l, e.1 ≠ q) :
    l.filter (fun e => !(e.1 == q)) = l := by
  induction l with
  | nil => rfl
  | cons e rest ih =>
    have he : e.1 ≠ q := hq e (List.mem_cons_self e rest)
    have hrest : ∀ e ∈ rest, e.1 ≠ q := fun x hx => hq x (List.mem_cons_of_mem _ hx)
    simp [List.filter_cons, he, ih hrest]

lemma findBlock_mem (p : Ptr) (l : List (Ptr × List Nat)) (bs : List Nat)
    (hf : findBlock p l = some bs) : (p, bs) ∈ l := by
  induction l with
  | nil => simp [findBlock] at hf
  | cons e rest ih =>
    by_cases he : e.1 = p
    · simp only [findBlock, if_pos he, Option.some.injEq] at hf
      have : e = (p, bs) := by
        cases e with
        | mk a b => simp_all
      exact this ▸ List.mem_cons_self e rest
    · simp only [findBlock, if_neg he] at hf
      exact List.mem_cons_of_mem _ (ih hf)

lemma lookup_lt_next (h : Heap) (p : Ptr) (bs : List Nat)
    (hwf : h.WF) (hp : h.lookup p = some bs) : p < h.next :=
  hwf (p, bs) (findBlock_mem p h.blocks bs hp)

/-- Evaluation of the success path of `CBox::from(&str)`: on text without an
interior zero byte, it wraps the fresh address and the heap gains the block
`text ++ [0]` there. -/
lemma fromStr_eq (h : Heap) (text : List Nat) (hz : 0 ∉ text) :
    CBox.fromStr h text =
      .ok (⟨h.next⟩,
        ⟨(h.next, text ++ [0]) ::
            h.blocks.map (fun e => if e.1 = h.next then (h.next, text ++ [0]) else e),
          h.next + 1⟩) := by
  have hdata : ((text ++ [0]).takeWhile (fun b => !(b == 0)) ++ [0]) = text ++ [0] := by
    rw [takeWhile_append_nul text hz]
  have hw : writeBytes (List.replicate (text.length + 1) 0)
      ((text ++ [0]).takeWhile (fun b => !(b == 0)) ++ [0]) = text ++ [0] := by
    rw [hdata]
    exact writeBytes_exact _ _ (by simp)
  simp only [CBox.fromStr, cstringNew, if_neg hz]
  simp [Heap.malloc, Heap.strcpy, Heap.lookup, findBlock, Heap.setBlock, List.map_cons, hw]

lemma findBlock_cons_ne (p : Ptr) (e : Ptr × List Nat) (l : List (Ptr × List Nat))
    (hne : e.1 ≠ p) : findBlock p (e :: l) = findBlock p l := by
  simp [findBlock, hne]

lemma findBlock_cons_self (e : Ptr × List Nat) (l : List (Ptr × List Nat)) :
    findBlock e.1 (e :: l) = some e.2 := by
  simp [findBlock]

lemma strcpy_cons_self (nx pn : Ptr) (rep : List Nat) (blocks : List (Ptr × List Nat))
    (src : List Nat) :
    (Heap.mk ((pn, rep) :: blocks) nx).strcpy pn src =
      ⟨(pn, writeBytes rep (src.takeWhile (fun b => !(b == 0)) ++ [0])) ::
          blocks.map (fun e =>
            if e.1 = pn then (pn, writeBytes rep (src.takeWhile (fun b => !(b == 0)) ++ [0]))
            else e),
        nx⟩ := by
  simp [Heap.strcpy, Heap.lookup, findBlock, Heap.setBlock]

lemma free_eq (h : Heap) (p : Ptr) (bs : List Nat) (hp : h.lookup p = some bs) :
    h.free p = some ⟨h.blocks.filter (fun e => !(e.1 == p)), h.next⟩ := by
  simp [Heap.free, hp]

/-- Evaluation of `CBox::clone` at `str`: under a well-formed heap with the
original block allocated, cloning allocates a fresh block at the next address
holding the dereferenced text plus terminator, leaving every old block as it
was. -/
lemma cloneStr_eq (h : Heap) (b : CBox) (bs : List Nat)
    (hwf : h.WF) (hb : h.lookup b.ptr = some bs) :
    b.cloneStr h =
      (⟨h.next⟩, ⟨(h.next, b.derefStr h ++ [0]) :: h.blocks, h.next + 1⟩) := by
  have hlt := lookup_lt_next h b.ptr bs hwf hb
  have hne : h.next ≠ b.ptr := fun hc => absurd (hc ▸ hlt) (Nat.lt_irrefl _)
  have hderef : b.derefStr h = bs.takeWhile (fun x => !(x == 0)) := by
    simp [CBox.derefStr, derefBytes, hb]
  have hw : writeBytes (List.replicate ((b.derefStr h).length + 1) 0)
      (bs.takeWhile (fun b => !(b == 0)) ++ [0]) = b.derefStr h ++ [0] := by
    have : bs.takeWhile (fun b => !(b == 0)) ++ [0] = b.derefStr h ++ [0] := by
      rw [hderef]
    rw [this]
    exact writeBytes_exact _ _ (by simp)
  have hlook1 : (Heap.mk ((h.next, List.replicate ((b.derefStr h).length + 1) 0) :: h.blocks)
      (h.next + 1)).lookup b.ptr = some bs := by
    simp only [Heap.lookup]
    rw [findBlock_cons_ne b.ptr (h.next, List.replicate ((b.derefStr h).length + 1) 0)
      h.blocks hne]
    exact hb
  have hmap : h.blocks.map (fun e => if e.1 = h.next then (h.next, b.derefStr h ++ [0]) else e)
      = h.blocks :=
    map_setBlock_id _ _ _ (fun e he => Nat.ne_of_lt (hwf e he))
  unfold CBox.cloneStr
  simp only [Heap.malloc, Heap.strcpyP, hlook1, Option.getD_some, strcpy_cons_self, hw, hmap]

/-- Reading back a freshly constructed `CBox<str>` yields the original text. -/
lemma derefStr_fromStr_self (h : Heap) (text : List Nat) (hz : 0 ∉ text)
    (b : CBox) (h2 : Heap) (hok : CBox.fromStr h text = .ok (b, h2)) :
    b.derefStr h2 = text := by
  rw [fromStr_eq h text hz] at hok
  obtain ⟨hb, hh⟩ : b = ⟨h.next⟩ ∧ h2 = _ := by
    have := hok
    simp only [Except.ok.injEq, Prod.mk.injEq] at this
    exact ⟨this.1.symm, this.2.symm⟩
  subst hb hh
  simp [CBox.derefStr, derefBytes, Heap.lookup, findBlock, takeWhile_append_nul text hz]

/-- `CBox::from(&str)` leaves every other address's block unchanged. -/
lemma lookup_fromStr_other (h : Heap) (text : List Nat) (hz : 0 ∉ text)
    (b : CBox) (h2 : Heap) (hok : CBox.fromStr h text = .ok (b, h2))
    (p : Ptr) (hp : p ≠ h.next) : h2.lookup p = h.lookup p := by
  rw [fromStr_eq h text hz] at hok
  have hh : h2 = ⟨(h.next, text ++ [0]) ::
      h.blocks.map (fun e => if e.1 = h.next then (h.next, text ++ [0]) else e),
      h.next + 1⟩ := by
    simp only [Except.ok.injEq, Prod.mk.injEq] at hok
    exact hok.2.symm
  subst hh
  simp only [Heap.lookup]
  rw [findBlock_cons_ne p (h.next, text ++ [0]) _ (Ne.symm hp)]
  exact findBlock_map_setBlock_ne p h.next (text ++ [0]) h.blocks hp

/-! Claim theorems. -/

/-- Claim C1 (code-bug evidence).  The claim says every wrapper not consumed by
`unwrap` invokes `dispose` exactly once when it goes out of scope.  This holds
for `CSemiBox` (its `Drop` impl, lines 58-64, makes one dispose call), but the
source declares no `Drop` impl for `CBox` at all, so a `CBox` going out of
scope invokes `dispose` zero times: at pointer 0, the dispose count after a
`CBox` scope exit is 0, not 1, while a `CSemiBox` on the same pointer gives
exactly 1. -/
theorem c1_cbox_drop_never_disposes :
    ((CBox.new 0).endLife (.dropped .normal) DisposeCount.zero).count 0 = 0 ∧
    ((CSemiBox.new 0).endLife (.dropped .normal) DisposeCount.zero).count 0 = 1 := by
  constructor
  · rfl
  · simp [CSemiBox.endLife, CSemiBox.drop, DisposeCount.invoke, DisposeCount.zero,
      CSemiBox.new]

/-- Claim C2: consuming a wrapper via `unwrap` returns exactly the held raw
pointer and suppresses the automatic teardown — after `unwrap`
(`mem::forget`), the dispose count of every pointer is unchanged, for both
`CBox` and `CSemiBox`. -/
theorem c2_unwrap_returns_ptr_and_disarms (b : CBox) (s : CSemiBox)
    (σ : DisposeCount) (q : Ptr) :
    b.unwrap = b.ptr ∧ s.unwrap = s.ptr ∧
    (b.endLife .unwrapped σ).count q = σ.count q ∧
    (s.endLife .unwrapped σ).count q = σ.count q :=
  ⟨rfl, rfl, rfl, rfl⟩

lemma fromStr_ok_deref (h : Heap) (text : List Nat) (hz : 0 ∉ text) :
    ∃ b h2, CBox.fromStr h text = .ok (b, h2) ∧ b.derefStr h2 = text :=
  ⟨⟨h.next⟩, _, fromStr_eq h text hz,
    derefStr_fromStr_self h text hz ⟨h.next⟩ _ (fromStr_eq h text hz)⟩

/-- Claim C3: for every text without an interior zero byte, constructing a
`CBox<str>` via `From<&str>` and reading it back through `Deref` yields the
original text. -/
theorem c3_fromStr_deref_roundtrip (h : Heap) (text : List Nat) (hz : 0 ∉ text) :
    ∃ b h2, CBox.fromStr h text = .ok (b, h2) ∧ b.derefStr h2 = text :=
  fromStr_ok_deref h text hz

/-- Witness for C3 at the text "hi" on the empty heap. -/
theorem c3_witness :
    (0 ∉ ([104, 105] : List Nat)) ∧
    ∃ b h2, CBox.fromStr ⟨[], 0⟩ [104, 105] = .ok (b, h2) ∧ b.derefStr h2 = [104, 105] :=
  ⟨by decide, c3_fromStr_deref_roundtrip ⟨[], 0⟩ [104, 105] (by decide)⟩

/-- Claim C4 (counterexample).  The claim says text construction fails "with a
recoverable error".  The host signature `fn from(&str) -> CBox<str>` has no
error value at all: on an embedded zero byte the code panics inside
`CString::new(text).unwrap()`.  At the concrete input `[97, 0, 98]` the
operation's outcome is the panic, not a returned recoverable error. -/
theorem c4_counterexample_panic_not_error :
    CBox.fromStr ⟨[], 0⟩ [97, 0, 98] = .error RustPanic.interiorNul := by
  rfl

/-- Claim C4 (amended): for every input text containing an embedded zero byte,
construction fails explicitly and safely by a panic from
`CString::new(text).unwrap()` — before any allocation — and never silently
truncates: no wrapper is ever produced for such input. -/
theorem c4_nul_input_panics (h : Heap) (text : List Nat) (hz : 0 ∈ text) :
    CBox.fromStr h text = .error RustPanic.interiorNul := by
  simp [CBox.fromStr, cstringNew, hz]

/-- Witness for the amended C4 at the text consisting of one zero byte. -/
theorem c4_witness :
    (0 ∈ ([0] : List Nat)) ∧
    CBox.fromStr ⟨[], 0⟩ [0] = .error RustPanic.interiorNul :=
  ⟨by decide, c4_nul_input_panics ⟨[], 0⟩ [0] (by decide)⟩

/-- Claim C5: `as_semi` reinterpretation of a `CBox` as a `CSemiBox` view
preserves the identical pointer value, is inverted by the opposite
layout-equivalence transmute (bidirectional), touches no heap (the operations
take no heap argument: no allocation, no copy), and transparent access through
either view over the same heap reads identical contents. -/
theorem c5_as_semi_zero_cost_bidirectional (b : CBox) (s : CSemiBox) (h : Heap) :
    (b.as_semi).ptr = b.ptr ∧
    (b.as_semi).toBox = b ∧
    (s.toBox).as_semi = s ∧
    (b.as_semi).derefStr h = b.derefStr h :=
  ⟨rfl, rfl, rfl, rfl⟩

/-- Claim C6: cloning a `CBox<str>` under a well-formed heap produces a fresh
allocation at a distinct address holding the same text plus terminator (size
`len + 1`), leaves the original block untouched, yields equal text through
`Deref`, keeps the original unaffected by any store through the clone, and the
two blocks can each be freed exactly once with both frees succeeding (no
double-free). -/
theorem c6_clone_fresh_equal_independent (h : Heap) (b : CBox) (bs data : List Nat)
    (hwf : h.WF) (hb : h.lookup b.ptr = some bs) :
    (b.cloneStr h).1.ptr ≠ b.ptr ∧
    (b.cloneStr h).2.lookup (b.cloneStr h).1.ptr = some (b.derefStr h ++ [0]) ∧
    ((b.cloneStr h).2.lookup (b.cloneStr h).1.ptr).map List.length
      = some ((b.derefStr h).length + 1) ∧
    (b.cloneStr h).2.lookup b.ptr = some bs ∧
    (b.cloneStr h).1.derefStr (b.cloneStr h).2 = b.derefStr h ∧
    ((b.cloneStr h).2.setBlock (b.cloneStr h).1.ptr data).lookup b.ptr = some bs ∧
    ∃ h3 h4, (b.cloneStr h).2.free (b.cloneStr h).1.ptr = some h3 ∧
      h3.free b.ptr = some h4 := by
  have hlt := lookup_lt_next h b.ptr bs hwf hb
  have hne : h.next ≠ b.ptr := fun hc => absurd (hc ▸ hlt) (Nat.lt_irrefl _)
  have hclone := cloneStr_eq h b bs hwf hb
  rw [hclone]
  have hnul : 0 ∉ b.derefStr h := by
    have : b.derefStr h = bs.takeWhile (fun x => !(x == 0)) := by
      simp [CBox.derefStr, derefBytes, hb]
    rw [this]
    exact nul_notMem_takeWhile bs
  refine ⟨fun hc => hne hc, ?_, ?_, ?_, ?_, ?_, ?_⟩
  · simp [Heap.lookup, findBlock]
  · simp [Heap.lookup, findBlock]
  · show Heap.lookup _ b.ptr = some bs
    simp only [Heap.lookup]
    rw [findBlock_cons_ne b.ptr (h.next, b.derefStr h ++ [0]) h.blocks hne]
    exact hb
  · show derefBytes ⟨(h.next, b.derefStr h ++ [0]) :: h.blocks, h.next + 1⟩ h.next
        = b.derefStr h
    have hl : (Heap.mk ((h.next, b.derefStr h ++ [0]) :: h.blocks) (h.next + 1)).lookup h.next
        = some (b.derefStr h ++ [0]) := by
      simp [Heap.lookup, findBlock]
    unfold derefBytes
    rw [hl]
    exact takeWhile_append_nul _ hnul
  · rw [lookup_setBlock_ne _ h.next b.ptr data (Ne.symm hne)]
    show Heap.lookup _ b.ptr = some bs
    simp only [Heap.lookup]
    rw [findBlock_cons_ne b.ptr (h.next, b.derefStr h ++ [0]) h.blocks hne]
    exact hb
  · refine ⟨⟨h.blocks, h.next + 1⟩, ⟨h.blocks.filter (fun e => !(e.1 == b.ptr)), h.next + 1⟩,
      ?_, ?_⟩
    · rw [free_eq _ h.next (b.derefStr h ++ [0]) (by simp [Heap.lookup, findBlock])]
      have hfilter : ((h.next, b.derefStr h ++ [0]) :: h.blocks).filter
          (fun e => !(e.1 == h.next)) = h.blocks := by
        rw [List.filter_cons]
        simp only [beq_self_eq_true, Bool.not_true, Bool.false_eq_true, if_false]
        exact filter_ne_id h.blocks h.next (fun e he => Nat.ne_of_lt (hwf e he))
      simp [hfilter]
    · exact free_eq ⟨h.blocks, h.next + 1⟩ b.ptr bs hb

/-- Witness for C6: clone the box built from "hi" on the empty heap. -/
theorem c6_witness :
    ((⟨[(0, [104, 105, 0])], 1⟩ : Heap).WF ∧
      (⟨[(0, [104, 105, 0])], 1⟩ : Heap).lookup 0 = some [104, 105, 0]) ∧
    ((CBox.mk 0).cloneStr ⟨[(0, [104, 105, 0])], 1⟩).1.ptr ≠ (CBox.mk 0).ptr ∧
    ((CBox.mk 0).cloneStr ⟨[(0, [104, 105, 0])], 1⟩).2.lookup
        ((CBox.mk 0).cloneStr ⟨[(0, [104, 105, 0])], 1⟩).1.ptr
      = some ((CBox.mk 0).derefStr ⟨[(0, [104, 105, 0])], 1⟩ ++ [0]) ∧
    (((CBox.mk 0).cloneStr ⟨[(0, [104, 105, 0])], 1⟩).2.lookup
        ((CBox.mk 0).cloneStr ⟨[(0, [104, 105, 0])], 1⟩).1.ptr).map List.length
      = some (((CBox.mk 0).derefStr ⟨[(0, [104, 105, 0])], 1⟩).length + 1) ∧
    ((CBox.mk 0).cloneStr ⟨[(0, [104, 105, 0])], 1⟩).2.lookup (CBox.mk 0).ptr
      = some [104, 105, 0] ∧
    ((CBox.mk 0).cloneStr ⟨[(0, [104, 105, 0])], 1⟩).1.derefStr
        ((CBox.mk 0).cloneStr ⟨[(0, [104, 105, 0])], 1⟩).2
      = (CBox.mk 0).derefStr ⟨[(0, [104, 105, 0])], 1⟩ ∧
    (((CBox.mk 0).cloneStr ⟨[(0, [104, 105, 0])], 1⟩).2.setBlock
        ((CBox.mk 0).cloneStr ⟨[(0, [104, 105, 0])], 1⟩).1.ptr [120, 0]).lookup
        (CBox.mk 0).ptr = some [104, 105, 0] ∧
    ∃ h3 h4,
      ((CBox.mk 0).cloneStr ⟨[(0, [104, 105, 0])], 1⟩).2.free
          ((CBox.mk 0).cloneStr ⟨[(0, [104, 105, 0])], 1⟩).1.ptr = some h3 ∧
        h3.free (CBox.mk 0).ptr = some h4 :=
  ⟨⟨by decide, by decide⟩,
    c6_clone_fresh_equal_independent ⟨[(0, [104, 105, 0])], 1⟩ ⟨0⟩ [104, 105, 0] [120, 0]
      (by decide) (by decide)⟩

/-- Claim C7: wrapper equality delegates to the wrapped value's equality over
the dereferenced contents — two wrappers constructed independently over the
same text hold distinct foreign addresses yet compare equal by value. -/
theorem c7_independent_wrappers_equal (h : Heap) (text : List Nat) (hz : 0 ∉ text) :
    ∃ b1 h1 b2 h2, CBox.fromStr h text = .ok (b1, h1) ∧
      CBox.fromStr h1 text = .ok (b2, h2) ∧
      b1.ptr ≠ b2.ptr ∧
      b1.derefStr h2 = b2.derefStr h2 ∧
      b1.eqStr h2 (b2.derefStr h2) = true ∧
      b2.eqStr h2 (b1.derefStr h2) = true := by
  obtain ⟨b1, h1, hok1, hd1⟩ := fromStr_ok_deref h text hz
  obtain ⟨b2, h2, hok2, hd2⟩ := fromStr_ok_deref h1 text hz
  have hb1 : b1 = ⟨h.next⟩ := by
    rw [fromStr_eq h text hz] at hok1
    simp only [Except.ok.injEq, Prod.mk.injEq] at hok1
    exact hok1.1.symm
  have hh1 : h1.next = h.next + 1 := by
    rw [fromStr_eq h text hz] at hok1
    simp only [Except.ok.injEq, Prod.mk.injEq] at hok1
    rw [← hok1.2]
  have hb2 : b2 = ⟨h1.next⟩ := by
    rw [fromStr_eq h1 text hz] at hok2
    simp only [Except.ok.injEq, Prod.mk.injEq] at hok2
    exact hok2.1.symm
  have hne : b1.ptr ≠ b2.ptr := by
    rw [hb1, hb2, hh1]
    exact Nat.ne_of_lt (Nat.lt_succ_self _)
  have hd1' : b1.derefStr h2 = text := by
    have hpres := lookup_fromStr_other h1 text hz b2 h2 hok2 b1.ptr (by
      rw [hb1, hh1]
      exact Nat.ne_of_lt (Nat.lt_succ_self _))
    unfold CBox.derefStr derefBytes
    unfold CBox.derefStr derefBytes at hd1
    rw [hpres]
    exact hd1
  refine ⟨b1, h1, b2, h2, hok1, hok2, hne, ?_, ?_, ?_⟩
  · rw [hd1', hd2]
  · simp [CBox.eqStr, hd1', hd2]
  · simp [CBox.eqStr, hd1', hd2]

/-- Witness for C7 at the text "abc" on the empty heap. -/
theorem c7_witness :
    (0 ∉ ([97, 98, 99] : List Nat)) ∧
    ∃ b1 h1 b2 h2, CBox.fromStr ⟨[], 0⟩ [97, 98, 99] = .ok (b1, h1) ∧
      CBox.fromStr h1 [97, 98, 99] = .ok (b2, h2) ∧
      b1.ptr ≠ b2.ptr ∧
      b1.derefStr h2 = b2.derefStr h2 ∧
      b1.eqStr h2 (b2.derefStr h2) = true ∧
      b2.eqStr h2 (b1.derefStr h2) = true :=
  ⟨by decide, c7_independent_wrappers_equal ⟨[], 0⟩ [97, 98, 99] (by decide)⟩

/-- Claim C8 (counterexample).  The claim quantifies over every input text,
but for a text containing a zero byte the construction allocates nothing and
wraps nothing — it panics first: at the concrete input `[0, 97]` (length 2)
no 3-byte allocation happens and no pointer is wrapped. -/
theorem c8_counterexample_no_alloc_on_nul :
    CBox.fromStr ⟨[], 0⟩ [0, 97] = .error RustPanic.interiorNul := by
  rfl

/-- Claim C8 (amended): for every input text of byte length `n` with no
embedded zero byte, construction allocates exactly `n + 1` bytes of foreign
memory at the fresh address, copies the `n` text bytes, appends exactly one
zero terminator byte, wraps the fresh pointer, and the terminator is not
counted in the logical length read back through `Deref`. -/
theorem c8_alloc_exact_layout (h : Heap) (text : List Nat) (hz : 0 ∉ text) :
    ∃ h2, CBox.fromStr h text = .ok (⟨h.next⟩, h2) ∧
      h2.lookup h.next = some (text ++ [0]) ∧
      (h2.lookup h.next).map List.length = some (text.length + 1) ∧
      (⟨h.next⟩ : CBox).derefStr h2 = text ∧
      ((⟨h.next⟩ : CBox).derefStr h2).length = text.length := by
  refine ⟨_, fromStr_eq h text hz, ?_, ?_, ?_, ?_⟩
  · simp [Heap.lookup, findBlock]
  · simp [Heap.lookup, findBlock]
  · exact derefStr_fromStr_self h text hz ⟨h.next⟩ _ (fromStr_eq h text hz)
  · rw [derefStr_fromStr_self h text hz ⟨h.next⟩ _ (fromStr_eq h text hz)]

/-- Witness for the amended C8 at the text "ok" on the empty heap. -/
theorem c8_witness :
    (0 ∉ ([111, 107] : List Nat)) ∧
    ∃ h2, CBox.fromStr ⟨[], 0⟩ [111, 107] = .ok (⟨0⟩, h2) ∧
      h2.lookup 0 = some [111, 107, 0] ∧
      (h2.lookup 0).map List.length = some 3 ∧
      (⟨0⟩ : CBox).derefStr h2 = [111, 107] ∧
      ((⟨0⟩ : CBox).derefStr h2).length = 2 :=
  ⟨by decide, c8_alloc_exact_layout ⟨[], 0⟩ [111, 107] (by decide)⟩

/-- Claim C9 (counterexample).  The claim says the debug rendering of a text
wrapper equals the debug rendering of the underlying string.  For the wrapper
built from the one-character text "a" (byte 97), the `Debug` impl of
`CBox<str>` writes the raw text `[97]`, while the string's own debug rendering
is the quoted `[34, 97, 34]` — they differ. -/
theorem c9_counterexample_debug_not_delegated :
    CBox.fromStr ⟨[], 0⟩ [97] = .ok (⟨0⟩, ⟨[(0, [97, 0])], 1⟩) ∧
    CBox.debugStr ⟨[(0, [97, 0])], 1⟩ ⟨0⟩ = [97] ∧
    strDebug ((⟨0⟩ : CBox).derefStr ⟨[(0, [97, 0])], 1⟩) = [34, 97, 34] ∧
    CBox.debugStr ⟨[(0, [97, 0])], 1⟩ ⟨0⟩ ≠
      strDebug ((⟨0⟩ : CBox).derefStr ⟨[(0, [97, 0])], 1⟩) := by
  refine ⟨by rfl, by rfl, by rfl, by decide⟩

/-- Claim C9 (amended): the `Display` rendering of `CBox<str>` equals the
underlying string's display rendering, but its `Debug` rendering also writes
the raw text (equal to `Display`), not the string's debug rendering; the
generic `CSemiBox` formatting impls, by contrast, delegate to the wrapped
value's own corresponding rendering of the dereferenced contents. -/
theorem c9_display_delegates_debug_writes_raw (h : Heap) (b : CBox) (s : CSemiBox) :
    b.displayStr h = strDisplay (b.derefStr h) ∧
    b.debugStr h = strDisplay (b.derefStr h) ∧
    b.debugStr h = b.displayStr h ∧
    s.displayStr h = strDisplay (s.derefStr h) ∧
    s.debugStr h = strDebug (s.derefStr h) :=
  ⟨rfl, rfl, rfl, rfl, rfl⟩

/-- Claim C10: wrapping a raw pointer stores exactly that pointer unchanged
(the construction takes no heap: no allocation, no copy), and both `as_ptr`
and `unwrap` on the resulting wrapper return exactly the wrapped pointer, for
`CBox` and `CSemiBox` alike. -/
theorem c10_wrap_extract_identity (p : Ptr) :
    (CBox.new p).ptr = p ∧ (CBox.new p).as_ptr = p ∧ (CBox.new p).unwrap = p ∧
    (CSemiBox.new p).ptr = p ∧ (CSemiBox.new p).as_ptr = p ∧
    (CSemiBox.new p).unwrap = p :=
  ⟨rfl, rfl, rfl, rfl, rfl, rfl⟩

end Cbox
